import Mathlib

/-!
Verification of the SharkRadio client core: the telemetry payload codec
(`BroadcastConfigModal.vue`), the per-device session store and command
correlator (`sdrStore`), and the signal-profile resolver
(`RadarProgress.vue`).  All definitions are shallow embeddings of the
TypeScript source: JS numbers are modelled as exact rationals (`ℚ`),
JS strings as `String`, JS `Map`/`Record` objects as association lists,
and absent/`undefined` fields as `Option`.
-/

set_option maxRecDepth 4000

namespace SharkRadio

/-! ## JavaScript string and number primitives used by the codec -/

/-- One hexadecimal digit, lowercase, as produced by JS `Number.prototype.toString(16)`. -/
def hexDigitChar (n : Nat) : Char :=
  if n < 10 then Char.ofNat (48 + n) else Char.ofNat (87 + n)

/-- Digits of `n` in base 16, most significant first, accumulator form.
The first argument is fuel (structural recursion so that the kernel can
evaluate it); `natToHex` passes `n` itself, which always suffices since
the digit count of `n` is at most `n`. -/
def natToHexAux : Nat → Nat → List Char → List Char
  | 0, _, acc => acc
  | fuel + 1, n, acc =>
    if n = 0 then acc
    else natToHexAux fuel (n / 16) (hexDigitChar (n % 16) :: acc)

/-- JS `n.toString(16)` for a non-negative integer: lowercase hex, `"0"` for zero. -/
def natToHex (n : Nat) : String :=
  if n = 0 then "0" else String.mk (natToHexAux n n [])

/-- JS `m.toString(16)` for an integer value: a leading `'-'` for negative input
(JS stringifies the magnitude and prefixes the sign; it does not zero it out). -/
def intToHex (m : Int) : String :=
  if m < 0 then "-" ++ natToHex m.natAbs else natToHex m.toNat

/-- JS `String.prototype.padStart(len, c)`. -/
def padStart (s : String) (len : Nat) (c : Char) : String :=
  String.mk (List.replicate (len - s.length) c ++ s.data)

/-- JS `str.match(/.{1,2}/g)`: greedy split into 2-character chunks, a final
chunk of one character when the length is odd. -/
def chunkPairs : List Char → List (List Char)
  | [] => []
  | [a] => [[a]]
  | a :: b :: rest => [a, b] :: chunkPairs rest

/-- JS `pairs.reverse().join('')` applied to the 2-character chunks: the
byte-swap used for little-endian output. -/
def leReorder (l : List Char) : List Char :=
  ((chunkPairs l).reverse).flatten

/-- JS `num || 0`: on (non-NaN) numbers this falls back to `0` exactly when
the value is `0` itself, so it never zeroes a negative value. -/
def jsOrZero (q : ℚ) : ℚ := if q = 0 then 0 else q

/-- JS `/\s/` test, restricted to the ASCII whitespace that can occur in the
hex text box. -/
def jsIsWhitespace (c : Char) : Bool :=
  c == ' ' || c == '\t' || c == '\n' || c == '\r' || c == '\x0b' || c == '\x0c'

/-- JS `str.replace(/\s/g, '')`. -/
def jsStripWhitespace (s : String) : String :=
  String.mk (s.data.filter (fun c => !(jsIsWhitespace c)))

/-- JS `str.toUpperCase()` (ASCII range, which covers hex strings). -/
def jsToUpperCase (s : String) : String :=
  String.mk (s.data.map Char.toUpper)

/-! ## The payload codec (`BroadcastConfigModal.vue`, `generatedPayload`) -/

/-- Function `toLEHex` from `BroadcastConfigModal.vue`:
`Math.floor(num || 0).toString(16).padStart(bytes*2,'0')`, then the
2-character chunks are reversed and re-joined. -/
def toLEHex (num : ℚ) (bytes : Nat) : String :=
  String.mk (leReorder (padStart (intToHex ⌊jsOrZero num⌋) (bytes * 2) '0').data)

/-- Function `toByte` from `BroadcastConfigModal.vue`:
`Math.floor(num || 0).toString(16).padStart(2, '0')`. -/
def toByte (num : ℚ) : String :=
  padStart (intToHex ⌊jsOrZero num⌋) 2 '0'

/-- The `form0A01` position record: twelve numeric coordinate fields. -/
structure Form0A01 where
  hero_x : ℚ
  hero_y : ℚ
  eng_x : ℚ
  eng_y : ℚ
  inf3_x : ℚ
  inf3_y : ℚ
  inf4_x : ℚ
  inf4_y : ℚ
  air_x : ℚ
  air_y : ℚ
  sentry_x : ℚ
  sentry_y : ℚ
  deriving DecidableEq

/-- The `form0A02` health record. -/
structure Form0A02 where
  hero_hp : ℚ
  eng_hp : ℚ
  inf3_hp : ℚ
  inf4_hp : ℚ
  sentry_hp : ℚ
  deriving DecidableEq

/-- The `form0A04` match-status record. -/
structure Form0A04 where
  gold : ℚ
  occupied_supply : Bool
  occupied_highland : Bool
  occupied_fort : Bool
  occupied_base : Bool
  tunnel_opp_pre : Bool
  tunnel_opp_post : Bool
  tunnel_self_pre : Bool
  tunnel_self_post : Bool
  card_highland : Bool
  card_ramp : Bool
  card_highway : Bool
  deriving DecidableEq

/-- One buff sub-record of `form0A05` (`def` is a Lean keyword, so the
source field `def` is named `defense` here and `neg_def` keeps its name). -/
structure BuffEntry where
  hp_rec : ℚ
  cool : ℚ
  att : ℚ
  defense : ℚ
  neg_def : ℚ
  attitude : ℚ
  deriving DecidableEq

/-- The `form0A05` buff-block record: five sub-records. -/
structure Form0A05 where
  hero : BuffEntry
  eng : BuffEntry
  inf3 : BuffEntry
  inf4 : BuffEntry
  sentry : BuffEntry
  deriving DecidableEq

/-- The tab selected in the payload dialog (`activeTab`). -/
inductive PayloadTab
  | t0A01
  | t0A02
  | t0A04
  | t0A05
  | raw
  deriving DecidableEq

/-- All operator inputs of the payload dialog. -/
structure BroadcastForms where
  manualHex : String
  form0A01 : Form0A01
  form0A02 : Form0A02
  form0A04 : Form0A04
  form0A05 : Form0A05
  deriving DecidableEq

/-- Position branch of `generatedPayload` (before the final `toUpperCase`). -/
def body0A01 (f : Form0A01) : String :=
  toLEHex f.hero_x 2 ++ toLEHex f.hero_y 2 ++
  toLEHex f.eng_x 2 ++ toLEHex f.eng_y 2 ++
  toLEHex f.inf3_x 2 ++ toLEHex f.inf3_y 2 ++
  toLEHex f.inf4_x 2 ++ toLEHex f.inf4_y 2 ++
  toLEHex f.air_x 2 ++ toLEHex f.air_y 2 ++
  toLEHex f.sentry_x 2 ++ toLEHex f.sentry_y 2

/-- Health branch of `generatedPayload`. -/
def body0A02 (f : Form0A02) : String :=
  toLEHex f.hero_hp 2 ++ toLEHex f.eng_hp 2 ++
  toLEHex f.inf3_hp 2 ++ toLEHex f.inf4_hp 2 ++
  "0000" ++ toLEHex f.sentry_hp 2

/-- The occupancy bitmask of the match-status branch: `mask |= (1 << bit)`
for each checked box. -/
def matchMask (f : Form0A04) : Nat :=
  (if f.occupied_supply then 1 <<< 0 else 0) |||
  (if f.occupied_highland then 1 <<< 1 else 0) |||
  (if f.occupied_fort then 1 <<< 4 else 0) |||
  (if f.occupied_base then 1 <<< 8 else 0) |||
  (if f.tunnel_opp_pre then 1 <<< 9 else 0) |||
  (if f.tunnel_opp_post then 1 <<< 10 else 0) |||
  (if f.tunnel_self_pre then 1 <<< 11 else 0) |||
  (if f.tunnel_self_post then 1 <<< 12 else 0) |||
  (if f.card_highland then 1 <<< 13 else 0) |||
  (if f.card_ramp then 1 <<< 14 else 0) |||
  (if f.card_highway then 1 <<< 15 else 0)

/-- Match-status branch of `generatedPayload`. -/
def body0A04 (f : Form0A04) : String :=
  toLEHex f.gold 2 ++ "0000" ++ toLEHex (matchMask f : ℚ) 4

/-- Helper `genBuff` of the buff-block branch. -/
def genBuff (b : BuffEntry) : String :=
  toByte b.hp_rec ++ toLEHex b.cool 2 ++ toByte b.defense ++
  toByte b.neg_def ++ toLEHex b.att 2

/-- Buff-block branch of `generatedPayload`. -/
def body0A05 (f : Form0A05) : String :=
  genBuff f.hero ++ genBuff f.eng ++ genBuff f.inf3 ++ genBuff f.inf4 ++
  (genBuff f.sentry ++ toByte f.sentry.attitude)

/-- Computed value `generatedPayload` from `BroadcastConfigModal.vue`: the raw tab returns
the whitespace-stripped, uppercased manual hex; the record tabs build
`contentHex` and uppercase it.  (The source wraps the record branches in a
`try`/`catch`, but every operation used is total on numbers, so the embedding
is the total function.) -/
def generatedPayload (activeTab : PayloadTab) (fs : BroadcastForms) : String :=
  match activeTab with
  | .raw => jsToUpperCase (jsStripWhitespace fs.manualHex)
  | .t0A01 => jsToUpperCase (body0A01 fs.form0A01)
  | .t0A02 => jsToUpperCase (body0A02 fs.form0A02)
  | .t0A04 => jsToUpperCase (body0A04 fs.form0A04)
  | .t0A05 => jsToUpperCase (body0A05 fs.form0A05)

/-! ## Association-list model of JS `Map` and `Record` objects -/

/-- JS `map.get(k)` / `record[k]`: the first binding of `k`. -/
def lookupKey {α : Type} (m : List (String × α)) (k : String) : Option α :=
  (m.find? (fun p => p.1 == k)).map (fun p => p.2)

/-- JS `map.set(k, v)` / `record[k] = v`: replace an existing binding in
place, else append. -/
def setKey {α : Type} (m : List (String × α)) (k : String) (v : α) :
    List (String × α) :=
  if (m.find? (fun p => p.1 == k)).isSome then
    m.map (fun p => if p.1 == k then (k, v) else p)
  else m ++ [(k, v)]

/-- JS `map.delete(k)`. -/
def deleteKey {α : Type} (m : List (String × α)) (k : String) :
    List (String × α) :=
  m.filter (fun p => !(p.1 == k))

/-! ## The session store (`sdrStore`, `src/unnamed/part_003`) -/

/-- Model of `SpectrumData`: parallel frequency/power arrays. -/
structure SpectrumData where
  frequencies : List ℚ
  power : List ℚ
  deriving DecidableEq

/-- One entry of `runtimeStatus`: the OVR/UND hardware flags. -/
structure RuntimeFlags where
  overflow : Bool
  underflow : Bool
  deriving DecidableEq

instance : Inhabited RuntimeFlags := ⟨⟨false, false⟩⟩

/-- One entry of `decodedPackets`; fields are `Option` because the inbound
frame may omit any of them. -/
structure DecodedPacket where
  timestamp : Option String
  hex : Option String
  packetType : Option String
  isValid : Option Bool
  deviceId : Option String
  deriving DecidableEq

/-- The argument object of `updateSpectrum`: `device_id`, the spectrum
arrays, and the runtime flags, each possibly absent.  A `some` in
`overflow`/`underflow` models a field that is present *and* a boolean
(the source tests `typeof x === 'boolean'`). -/
structure SpectrumPayload where
  device_id : Option String
  frequencies : Option (List ℚ)
  power : Option (List ℚ)
  overflow : Option Bool
  underflow : Option Bool
  deriving DecidableEq

/-- A parsed inbound WebSocket frame, with every field the `onmessage`
handler inspects.  Absent JS fields are `none`. -/
structure Frame where
  cmd : Option String := none
  type : Option String := none
  device_id : Option String := none
  frequencies : Option (List ℚ) := none
  power : Option (List ℚ) := none
  overflow : Option Bool := none
  underflow : Option Bool := none
  timestamp : Option String := none
  hex : Option String := none
  packet_type : Option String := none
  is_valid : Option Bool := none
  success : Option Bool := none
  data : Option SpectrumPayload := none
  error : Option String := none
  deriving DecidableEq

/-- A scheduled `setTimeout` handle: the caller it resolves, the command
name its closure captured, and the delay in milliseconds. -/
structure Timer where
  id : Nat
  cmd : String
  delayMs : Nat
  deriving DecidableEq

/-- The mutable state of the store.  Callers of `sendCommand` are
identified by a `Nat`; a resolved promise is recorded as a
`(caller, frame)` pair in `resolutions` (the source resolver calls
`resolve(response)`; it never calls `reject`, so the model has no
rejection event at all). -/
structure Store where
  wsOpen : Bool
  spectrums : List (String × SpectrumData)
  runtimeStatus : List (String × RuntimeFlags)
  decodedPackets : List DecodedPacket
  pendingCommands : List (String × Nat)
  timers : List Timer
  resolutions : List (Nat × Frame)
  deriving DecidableEq

/-- Action `updateStatus` from the source: its whole body is a commented-out
compatibility branch, so it leaves the store unchanged. -/
def updateStatus (s : Store) : Store := s

/-- The `Update Spectrum` block of `updateSpectrum`: replace the device's
spectrum when both arrays are present. -/
def spectrumPart (s : Store) (dat : SpectrumPayload) (deviceId : String) :
    Store :=
  match dat.frequencies, dat.power with
  | some fs, some ps =>
    { s with spectrums := setKey s.spectrums deviceId ⟨fs, ps⟩ }
  | _, _ => s

/-- The new value of the device's runtime flags: start from the stored
entry (or all-false), then overwrite each flag only when the frame
supplies it as a boolean. -/
def mergeFlags (old : RuntimeFlags) (dat : SpectrumPayload) : RuntimeFlags :=
  let c1 :=
    match dat.overflow with
    | some b => { old with overflow := b }
    | none => old
  match dat.underflow with
  | some b => { c1 with underflow := b }
  | none => c1

/-- The `Update Runtime Status with Stickiness` block of `updateSpectrum`:
guarded by either flag being present as a boolean. -/
def statusPart (s : Store) (dat : SpectrumPayload) (deviceId : String) :
    Store :=
  if dat.overflow.isSome || dat.underflow.isSome then
    { s with
      runtimeStatus := setKey s.runtimeStatus deviceId
        (mergeFlags ((lookupKey s.runtimeStatus deviceId).getD ⟨false, false⟩)
          dat) }
  else s

/-- Action `updateSpectrum` composes the two blocks after the device-id
guard. -/
def updateSpectrum (s : Store) (dat : SpectrumPayload) : Store :=
  match dat.device_id with
  | none => s
  | some deviceId =>
    if deviceId = "" then s
    else statusPart (spectrumPart s dat deviceId) dat deviceId

/-- The `MAX_PACKETS` cap of `addDecodedPacket`. -/
def MAX_PACKETS : Nat := 100

/-- The queue update inside `addDecodedPacket`: `push`, then
`slice(-MAX_PACKETS)` when the length exceeds the cap. -/
def pushDecoded (q : List DecodedPacket) (p : DecodedPacket) :
    List DecodedPacket :=
  let arr := q ++ [p]
  if MAX_PACKETS < arr.length then arr.drop (arr.length - MAX_PACKETS) else arr

/-- Action `addDecodedPacket` from the source. -/
def addDecodedPacket (s : Store) (p : DecodedPacket) : Store :=
  { s with decodedPackets := pushDecoded s.decodedPackets p }

/-- The synthetic `CommandResponse` object literals of `sendCommand`
(`{cmd, success: false, data: null, error}`), as a frame. -/
def failureFrame (c : String) (err : String) : Frame :=
  { cmd := some c, success := some false, data := none, error := some err }

/-- Step 1 of the `ws.onmessage` handler installed by `setWebSocket`: a
truthy `cmd` field that matches a pending command invokes that caller's
resolver (which clears its timeout) with the frame itself and deletes the
pending entry. -/
def resolveStep (s : Store) (msg : Frame) : Store :=
  match msg.cmd with
  | some cmdKey =>
    if cmdKey = "" then s
    else
      match lookupKey s.pendingCommands cmdKey with
      | some id =>
        { s with
          pendingCommands := deleteKey s.pendingCommands cmdKey,
          timers := s.timers.filter (fun t => !(t.id == id)),
          resolutions := s.resolutions ++ [(id, msg)] }
      | none => s
  | none => s

/-- Steps 2 and 3 of the `ws.onmessage` handler: `type` dispatch to
`updateSpectrum` / `updateStatus` / `addDecodedPacket`, then the legacy
`{cmd: 'spectrum'|'status', data}` compatibility branch. -/
def broadcastStep (s1 : Store) (msg : Frame) : Store :=
  let s2 :=
    if msg.type = some "spectrum" then
      updateSpectrum s1
        { device_id := msg.device_id, frequencies := msg.frequencies,
          power := msg.power, overflow := msg.overflow,
          underflow := msg.underflow }
    else if msg.type = some "status" then updateStatus s1
    else if msg.type = some "packet" then
      addDecodedPacket s1
        { timestamp := msg.timestamp, hex := msg.hex,
          packetType := msg.packet_type, isValid := msg.is_valid,
          deviceId := msg.device_id }
    else s1
  match msg.cmd, msg.data with
  | some c, some d =>
    if c = "spectrum" then updateSpectrum s2 d
    else if c = "status" then updateStatus s2
    else s2
  | _, _ => s2

/-- The whole `ws.onmessage` handler: resolution step, then broadcast
dispatch. -/
def handleMessage (s : Store) (msg : Frame) : Store :=
  broadcastStep (resolveStep s msg) msg

/-- The `setTimeout` delay of `sendCommand`: 10000 ms. -/
def TIMEOUT_MS : Nat := 10000

/-- Action `sendCommand` from the source, for a fresh caller `id`: if the socket
is not open, resolve immediately with the channel-unavailable failure;
otherwise schedule the 10 s timeout and register the resolver under the
command name (overwriting any previous entry of the same name, as
`Map.set` does). -/
def sendCommand (s : Store) (id : Nat) (c : String) : Store :=
  if !s.wsOpen then
    { s with resolutions := s.resolutions ++ [(id, failureFrame c "WebSocket 未连接")] }
  else
    { s with
      timers := s.timers ++ [⟨id, c, TIMEOUT_MS⟩],
      pendingCommands := setKey s.pendingCommands c id }

/-- The timeout callback of `sendCommand` firing: only a still-scheduled
timer can fire; it deletes the pending entry under its command name and
resolves its caller with the synthetic timeout failure. -/
def fireTimeout (s : Store) (id : Nat) : Store :=
  match s.timers.find? (fun t => t.id == id) with
  | some t =>
    { s with
      timers := s.timers.filter (fun u => !(u.id == id)),
      pendingCommands := deleteKey s.pendingCommands t.cmd,
      resolutions := s.resolutions ++ [(id, failureFrame t.cmd "命令超时")] }
  | none => s

/-- The events the single-threaded event loop can deliver to the store. -/
inductive Event
  | send (id : Nat) (c : String)
  | msg (f : Frame)
  | fire (id : Nat)
  deriving DecidableEq

/-- One event-loop step. -/
def step (s : Store) : Event → Store
  | .send id c => sendCommand s id c
  | .msg f => handleMessage s f
  | .fire id => fireTimeout s id

/-- Run a sequence of events. -/
def run (s : Store) (es : List Event) : Store := es.foldl step s

/-- The number of times caller `id`'s promise has been resolved. -/
def countRes (s : Store) (id : Nat) : Nat :=
  (s.resolutions.filter (fun p => p.1 == id)).length

/-! ## The signal-profile resolver (`RadarProgress.vue`) -/

/-- One direction's radio configuration (`SDRConfig`). -/
structure SDRConfig where
  centerFreq : ℚ
  sampleRate : ℚ
  gain : ℚ
  bandwidth : ℚ
  deriving DecidableEq

/-- The `signalParams` table of `onRxSignalTypeChange`: frequency and
bandwidth in MHz per named receive profile. -/
def rxSignalParams (val : String) : Option (ℚ × ℚ) :=
  if val = "red_broadcast" then some (433.20, 0.54)
  else if val = "red_jam_1" then some (432.20, 1.04)
  else if val = "red_jam_2" then some (432.60, 0.61)
  else if val = "red_jam_3" then some (433.20, 0.44)
  else if val = "blue_broadcast" then some (433.92, 0.54)
  else if val = "blue_jam_1" then some (434.92, 1.04)
  else if val = "blue_jam_2" then some (434.52, 0.61)
  else if val = "blue_jam_3" then some (433.92, 0.44)
  else none

/-- Handler `onRxSignalTypeChange` from `RadarProgress.vue`: a named profile sets
the receive center frequency from the table and floors the receive
bandwidth at 1 MHz (`Math.max(params.bw * 1e6, 1e6)`); an unknown name
(including `custom`) changes nothing. -/
def onRxSignalTypeChange (cfg : SDRConfig) (val : String) : SDRConfig :=
  match rxSignalParams val with
  | some p =>
    { cfg with centerFreq := p.1 * 10 ^ 6,
               bandwidth := max (p.2 * 10 ^ 6) (10 ^ 6) }
  | none => cfg

/-! ## Proof-side helper definitions and concrete sample inputs -/

/-- Keep only the newest `MAX_PACKETS` entries of a queue (specification
form of the `slice(-MAX_PACKETS)` trim). -/
def dropExcess (l : List DecodedPacket) : List DecodedPacket :=
  l.drop (l.length - MAX_PACKETS)

/-- A list of `n` distinct sample packets for concrete runs. -/
def mkPackets (n : Nat) : List DecodedPacket :=
  (List.range n).map fun i =>
    { timestamp := some (toString i), hex := none, packetType := none,
      isValid := none, deviceId := none }

/-- An empty store with an open channel. -/
def initialStore : Store :=
  { wsOpen := true, spectrums := [], runtimeStatus := [],
    decodedPackets := [], pendingCommands := [], timers := [],
    resolutions := [] }

/-- Invariant tracked for one `sendCommand` caller `id` with command name
`c` from the moment its call is issued: the caller is resolved at most
once, every resolution delivered to it echoes its command name, an
unresolved caller always still has its 10 s timeout scheduled, a live
timer means the caller is still unresolved, and any pending-map entry
pointing at the caller is under its own command name while unresolved. -/
structure CallInv (id : Nat) (c : String) (s : Store) : Prop where
  resCmd : ∀ p ∈ s.resolutions, p.1 = id → p.2.cmd = some c
  resLe : countRes s id ≤ 1
  timerOfUnresolved : countRes s id = 0 →
    s.timers.find? (fun t => t.id == id) = some ⟨id, c, TIMEOUT_MS⟩
  unresolvedOfTimer : (s.timers.find? (fun t => t.id == id)).isSome = true →
    countRes s id = 0
  pendKey : ∀ k, lookupKey s.pendingCommands k = some id →
    k = c ∧ countRes s id = 0

/-- Declared range of a little-endian 16-bit field. -/
def inU16 (q : ℚ) : Prop := 0 ≤ q ∧ q < 65536

/-- Declared range of a single-byte field. -/
def inU8 (q : ℚ) : Prop := 0 ≤ q ∧ q < 256

/-- All twelve position coordinates in their declared 16-bit range. -/
def Form0A01.InRange (f : Form0A01) : Prop :=
  inU16 f.hero_x ∧ inU16 f.hero_y ∧ inU16 f.eng_x ∧ inU16 f.eng_y ∧
  inU16 f.inf3_x ∧ inU16 f.inf3_y ∧ inU16 f.inf4_x ∧ inU16 f.inf4_y ∧
  inU16 f.air_x ∧ inU16 f.air_y ∧ inU16 f.sentry_x ∧ inU16 f.sentry_y

/-- All five health fields in their declared 16-bit range. -/
def Form0A02.InRange (f : Form0A02) : Prop :=
  inU16 f.hero_hp ∧ inU16 f.eng_hp ∧ inU16 f.inf3_hp ∧ inU16 f.inf4_hp ∧
  inU16 f.sentry_hp

/-- The gold count in its declared 16-bit range (the checkbox fields are
booleans and need no range). -/
def Form0A04.InRange (f : Form0A04) : Prop := inU16 f.gold

/-- All buff fields in their declared ranges. -/
def BuffEntry.InRange (b : BuffEntry) : Prop :=
  inU8 b.hp_rec ∧ inU16 b.cool ∧ inU16 b.att ∧ inU8 b.defense ∧
  inU8 b.neg_def ∧ inU8 b.attitude

/-- All five buff sub-records in range. -/
def Form0A05.InRange (f : Form0A05) : Prop :=
  f.hero.InRange ∧ f.eng.InRange ∧ f.inf3.InRange ∧ f.inf4.InRange ∧
  f.sentry.InRange

/-! ## Helper lemmas: association lists -/

theorem find?_filter_imp {α : Type} (p q : α → Bool) (l : List α)
    (h : ∀ x, p x = true → q x = true) :
    (l.filter q).find? p = l.find? p := by
  induction l with
  | nil => rfl
  | cons a l ih =>
    cases hq : q a with
    | true =>
      cases hp : p a with
      | true => simp [List.filter_cons, hq, List.find?_cons, hp]
      | false => simp [List.filter_cons, hq, List.find?_cons, hp, ih]
    | false =>
      have hp : p a = false := by
        cases hpa : p a
        · rfl
        · rw [h a hpa] at hq; exact hq
      simp [List.filter_cons, hq, List.find?_cons, hp, ih]

theorem lookupKey_deleteKey {α : Type} (m : List (String × α)) (k k' : String) :
    lookupKey (deleteKey m k) k' = if k' = k then none else lookupKey m k' := by
  by_cases hk : k' = k
  · subst hk
    simp only [if_pos rfl, lookupKey, deleteKey]
    have : (m.filter (fun p => !(p.1 == k'))).find? (fun p => p.1 == k') = none := by
      rw [List.find?_eq_none]
      intro x hx
      have := (List.mem_filter.mp hx).2
      simp at this
      simp [this]
    simp [this]
  · simp only [if_neg hk, lookupKey, deleteKey]
    rw [find?_filter_imp]
    intro x hx
    have : x.1 = k' := by simpa using hx
    simp [this, hk]

theorem find?_setKey_self {α : Type} (m : List (String × α)) (k : String) (v : α)
    (h : (m.find? (fun p => p.1 == k)).isSome = true) :
    (m.map (fun p => if p.1 == k then (k, v) else p)).find? (fun p => p.1 == k)
      = some (k, v) := by
  induction m with
  | nil => simp at h
  | cons a m ih =>
    rw [List.map_cons]
    by_cases hak : a.1 = k
    · rw [if_pos (by simp [hak])]
      exact List.find?_cons_of_pos _ (by simp)
    · rw [if_neg (by simp [hak])]
      rw [List.find?_cons_of_neg _ (by simp [hak])]
      rw [List.find?_cons_of_neg _ (by simp [hak])] at h
      exact ih h

theorem find?_setKey_other {α : Type} (m : List (String × α)) (k k' : String) (v : α)
    (hne : ¬ k' = k) :
    (m.map (fun p => if p.1 == k then (k, v) else p)).find? (fun p => p.1 == k')
      = m.find? (fun p => p.1 == k') := by
  induction m with
  | nil => rfl
  | cons a m ih =>
    rw [List.map_cons]
    by_cases hak : a.1 = k
    · rw [if_pos (by simp [hak])]
      rw [List.find?_cons_of_neg _ (by simp; exact fun hh => hne hh.symm)]
      rw [List.find?_cons_of_neg _ (by simp [hak]; exact fun hh => hne hh.symm)]
      exact ih
    · rw [if_neg (by simp [hak])]
      by_cases hak' : a.1 = k'
      · rw [List.find?_cons_of_pos _ (by simp [hak']),
            List.find?_cons_of_pos _ (by simp [hak'])]
      · rw [List.find?_cons_of_neg _ (by simp [hak']),
            List.find?_cons_of_neg _ (by simp [hak'])]
        exact ih

theorem lookupKey_setKey {α : Type} (m : List (String × α)) (k k' : String) (v : α) :
    lookupKey (setKey m k v) k' = if k' = k then some v else lookupKey m k' := by
  by_cases hk : k' = k
  · subst hk
    rw [if_pos rfl]
    unfold lookupKey setKey
    by_cases hs : (m.find? (fun p => p.1 == k')).isSome = true
    · rw [if_pos hs, find?_setKey_self m k' v hs]
      rfl
    · rw [if_neg hs]
      have hnone : m.find? (fun p => p.1 == k') = none := by
        cases h : m.find? (fun p => p.1 == k')
        · rfl
        · rw [h] at hs; simp at hs
      rw [List.find?_append, hnone, Option.none_or]
      rw [List.find?_cons_of_pos _ (by simp)]
      rfl
  · rw [if_neg hk]
    unfold lookupKey setKey
    by_cases hs : (m.find? (fun p => p.1 == k)).isSome = true
    · rw [if_pos hs, find?_setKey_other m k k' v hk]
    · rw [if_neg hs]
      rw [List.find?_append]
      have hone : (([(k, v)] : List (String × α)).find? (fun p => p.1 == k')) = none := by
        rw [List.find?_cons_of_neg _ (by simp; exact fun hh => hk hh.symm)]
        rfl
      rw [hone, Option.or_none]

theorem find?_append_single_ne {α : Type} (l : List α) (p : α → Bool) (x : α)
    (hx : p x = false) :
    (l ++ [x]).find? p = l.find? p := by
  rw [List.find?_append]
  cases h : l.find? p <;> simp [List.find?_cons, hx]

theorem find?_filter_ne_self {α : Type} (l : List α) (p : α → Bool) :
    (l.filter (fun t => !(p t))).find? p = none := by
  rw [List.find?_eq_none]
  intro x hx
  have := (List.mem_filter.mp hx).2
  simp at this
  simp [this]

/-! ## Helper lemmas: the bounded packet queue -/

theorem pushDecoded_eq_dropExcess (q : List DecodedPacket) (p : DecodedPacket) :
    pushDecoded q p = dropExcess (q ++ [p]) := by
  show (if MAX_PACKETS < (q ++ [p]).length then
          (q ++ [p]).drop ((q ++ [p]).length - MAX_PACKETS)
        else q ++ [p]) = dropExcess (q ++ [p])
  unfold dropExcess
  split
  · rfl
  · rename_i h
    have : (q ++ [p]).length - MAX_PACKETS = 0 := by omega
    rw [this, List.drop_zero]

theorem dropExcess_append_left (x y : List DecodedPacket) :
    dropExcess (dropExcess x ++ y) = dropExcess (x ++ y) := by
  unfold dropExcess
  have hk : x.length - MAX_PACKETS ≤ x.length := Nat.sub_le _ _
  rw [List.drop_append_of_le_length hk |>.symm]
  rw [List.drop_drop]
  congr 1
  simp [List.length_drop, List.length_append]
  omega

theorem dropExcess_of_le (q : List DecodedPacket) (h : q.length ≤ MAX_PACKETS) :
    dropExcess q = q := by
  unfold dropExcess
  have : q.length - MAX_PACKETS = 0 := by omega
  simp [this]

theorem length_dropExcess_le (q : List DecodedPacket)
    (h : MAX_PACKETS ≤ q.length) : (dropExcess q).length = MAX_PACKETS := by
  unfold dropExcess
  simp [List.length_drop]
  omega

theorem length_pushDecoded_le (q : List DecodedPacket) (p : DecodedPacket) :
    (pushDecoded q p).length ≤ MAX_PACKETS := by
  rw [pushDecoded_eq_dropExcess]
  by_cases h : (q ++ [p]).length ≤ MAX_PACKETS
  · rw [dropExcess_of_le _ h]
    exact h
  · rw [length_dropExcess_le _ (by omega)]

theorem foldl_pushDecoded (l q : List DecodedPacket)
    (hq : q.length ≤ MAX_PACKETS) :
    List.foldl pushDecoded q l = dropExcess (q ++ l) := by
  induction l generalizing q with
  | nil => simpa using (dropExcess_of_le q hq).symm
  | cons p l ih =>
    calc List.foldl pushDecoded q (p :: l)
        = List.foldl pushDecoded (pushDecoded q p) l := rfl
      _ = dropExcess (pushDecoded q p ++ l) := ih _ (length_pushDecoded_le q p)
      _ = dropExcess (dropExcess (q ++ [p]) ++ l) := by
          rw [pushDecoded_eq_dropExcess]
      _ = dropExcess ((q ++ [p]) ++ l) := dropExcess_append_left _ _
      _ = dropExcess (q ++ (p :: l)) := by simp

/-! ## Helper lemmas: store shapes -/

theorem spectrumPart_shape (s : Store) (dat : SpectrumPayload) (dev : String) :
    ∃ sp, spectrumPart s dat dev = { s with spectrums := sp } := by
  unfold spectrumPart
  cases dat.frequencies <;> cases dat.power <;> exact ⟨_, rfl⟩

theorem statusPart_shape (s : Store) (dat : SpectrumPayload) (dev : String) :
    ∃ rs, statusPart s dat dev = { s with runtimeStatus := rs } := by
  unfold statusPart
  split <;> exact ⟨_, rfl⟩

theorem updateSpectrum_shape (s : Store) (dat : SpectrumPayload) :
    ∃ sp rs, updateSpectrum s dat =
      { s with spectrums := sp, runtimeStatus := rs } := by
  unfold updateSpectrum
  cases dat.device_id with
  | none => exact ⟨s.spectrums, s.runtimeStatus, rfl⟩
  | some dev =>
    dsimp only
    by_cases hdev : dev = ""
    · rw [if_pos hdev]
      exact ⟨s.spectrums, s.runtimeStatus, rfl⟩
    · rw [if_neg hdev]
      obtain ⟨sp, h1⟩ := spectrumPart_shape s dat dev
      obtain ⟨rs, h2⟩ := statusPart_shape (spectrumPart s dat dev) dat dev
      rw [h2, h1]
      exact ⟨sp, rs, rfl⟩

theorem addDecodedPacket_shape (s : Store) (p : DecodedPacket) :
    addDecodedPacket s p = { s with decodedPackets := pushDecoded s.decodedPackets p } :=
  rfl

theorem broadcastStep_shape (s : Store) (msg : Frame) :
    ∃ sp rs dq, broadcastStep s msg =
      { s with spectrums := sp, runtimeStatus := rs, decodedPackets := dq } := by
  unfold broadcastStep
  have h2 : ∀ s2 : Store,
      (∃ sp rs dq, (s2 : Store) =
        { s with spectrums := sp, runtimeStatus := rs, decodedPackets := dq }) →
      ∃ sp rs dq,
        (match msg.cmd, msg.data with
          | some c, some d =>
            if c = "spectrum" then updateSpectrum s2 d
            else if c = "status" then updateStatus s2
            else s2
          | _, _ => s2) =
        { s with spectrums := sp, runtimeStatus := rs, decodedPackets := dq } := by
    intro s2 ⟨sp, rs, dq, hs2⟩
    cases msg.cmd with
    | none => exact ⟨sp, rs, dq, hs2⟩
    | some c =>
      cases msg.data with
      | none => exact ⟨sp, rs, dq, hs2⟩
      | some d =>
        dsimp only
        by_cases hc : c = "spectrum"
        · simp only [hc, if_pos rfl]
          obtain ⟨sp2, rs2, hup⟩ := updateSpectrum_shape s2 d
          rw [hup, hs2]
          exact ⟨sp2, rs2, dq, rfl⟩
        · rw [if_neg hc]
          by_cases hc2 : c = "status"
          · rw [if_pos hc2]
            exact ⟨sp, rs, dq, hs2⟩
          · rw [if_neg hc2]
            exact ⟨sp, rs, dq, hs2⟩
  apply h2
  by_cases ht : msg.type = some "spectrum"
  · rw [if_pos ht]
    obtain ⟨sp2, rs2, hup⟩ := updateSpectrum_shape s _
    rw [hup]
    exact ⟨sp2, rs2, s.decodedPackets, rfl⟩
  · rw [if_neg ht]
    by_cases ht2 : msg.type = some "status"
    · rw [if_pos ht2]
      exact ⟨s.spectrums, s.runtimeStatus, s.decodedPackets, rfl⟩
    · rw [if_neg ht2]
      by_cases ht3 : msg.type = some "packet"
      · rw [if_pos ht3]
        exact ⟨s.spectrums, s.runtimeStatus, _, rfl⟩
      · rw [if_neg ht3]
        exact ⟨s.spectrums, s.runtimeStatus, s.decodedPackets, rfl⟩

theorem spectrumPart_runtimeStatus (s : Store) (dat : SpectrumPayload)
    (dev : String) : (spectrumPart s dat dev).runtimeStatus = s.runtimeStatus := by
  obtain ⟨sp, h⟩ := spectrumPart_shape s dat dev
  rw [h]

theorem statusPart_spectrums (s : Store) (dat : SpectrumPayload)
    (dev : String) : (statusPart s dat dev).spectrums = s.spectrums := by
  obtain ⟨rs, h⟩ := statusPart_shape s dat dev
  rw [h]

theorem spectrumPart_spectrums_ne (s : Store) (dat : SpectrumPayload)
    (dev b : String) (h : b ≠ dev) :
    lookupKey (spectrumPart s dat dev).spectrums b = lookupKey s.spectrums b := by
  unfold spectrumPart
  cases dat.frequencies with
  | none => rfl
  | some fs =>
    cases dat.power with
    | none => rfl
    | some ps =>
      dsimp only
      rw [lookupKey_setKey, if_neg h]

theorem statusPart_runtimeStatus_ne (s : Store) (dat : SpectrumPayload)
    (dev b : String) (h : b ≠ dev) :
    lookupKey (statusPart s dat dev).runtimeStatus b
      = lookupKey s.runtimeStatus b := by
  unfold statusPart
  split
  · dsimp only
    rw [lookupKey_setKey, if_neg h]
  · rfl

theorem mergeFlags_eq (old : RuntimeFlags) (dat : SpectrumPayload) :
    mergeFlags old dat =
      { overflow := dat.overflow.getD old.overflow,
        underflow := dat.underflow.getD old.underflow } := by
  unfold mergeFlags
  cases dat.overflow <;> cases dat.underflow <;> rfl

/-! ## C8: the decoded-packet queue bound -/

theorem foldl_addDecodedPacket (l : List DecodedPacket) (s : Store) :
    (List.foldl addDecodedPacket s l).decodedPackets
      = List.foldl pushDecoded s.decodedPackets l := by
  induction l generalizing s with
  | nil => rfl
  | cons p l ih => exact ih (addDecodedPacket s p)

/-- C8: starting from an empty decoded-packet queue, ingesting 150 packets
leaves exactly the 100 most recently inserted ones in insertion order
(`l.drop 50`); moreover every single insertion leaves the queue at no more
than 100 entries, and eviction only removes from the oldest end (the new
queue is a suffix of the old queue with the new packet appended). -/
theorem addDecodedPacket_queue_bound :
    (∀ (s : Store) (l : List DecodedPacket),
        s.decodedPackets = [] → l.length = 150 →
        (List.foldl addDecodedPacket s l).decodedPackets = l.drop 50) ∧
    (∀ (s : Store) (p : DecodedPacket),
        ((addDecodedPacket s p).decodedPackets).length ≤ 100) ∧
    (∀ (s : Store) (p : DecodedPacket),
        (addDecodedPacket s p).decodedPackets <:+ s.decodedPackets ++ [p]) := by
  refine ⟨?_, ?_, ?_⟩
  · intro s l hs hl
    rw [foldl_addDecodedPacket, hs,
        foldl_pushDecoded l [] (by simp [MAX_PACKETS])]
    unfold dropExcess
    rw [List.nil_append, hl]
    rfl
  · intro s p
    have := length_pushDecoded_le s.decodedPackets p
    simpa [addDecodedPacket, MAX_PACKETS] using this
  · intro s p
    rw [addDecodedPacket_shape]
    dsimp only
    rw [pushDecoded_eq_dropExcess]
    exact List.drop_suffix _ _

theorem addDecodedPacket_queue_bound_witness :
    (List.foldl addDecodedPacket initialStore (mkPackets 150)).decodedPackets
      = (mkPackets 150).drop 50 :=
  addDecodedPacket_queue_bound.1 initialStore (mkPackets 150) rfl
    (by simp [mkPackets])

/-! ## C9: per-device spectrum isolation -/

/-- C9: ingesting a spectrum payload for device `a` never changes the
cached spectrum (nor the runtime flags) of any other device `b`, and a
payload lacking a device identifier (absent, or the falsy empty string)
leaves the whole store untouched. -/
theorem updateSpectrum_device_isolation :
    (∀ (s : Store) (dat : SpectrumPayload) (a b : String),
        dat.device_id = some a → b ≠ a →
        lookupKey (updateSpectrum s dat).spectrums b
            = lookupKey s.spectrums b ∧
        lookupKey (updateSpectrum s dat).runtimeStatus b
            = lookupKey s.runtimeStatus b) ∧
    (∀ (s : Store) (dat : SpectrumPayload),
        dat.device_id = none ∨ dat.device_id = some "" →
        updateSpectrum s dat = s) := by
  constructor
  · intro s dat a b hdi hb
    unfold updateSpectrum
    rw [hdi]
    dsimp only
    by_cases ha : a = ""
    · rw [if_pos ha]
      exact ⟨rfl, rfl⟩
    · rw [if_neg ha]
      constructor
      · rw [statusPart_spectrums]
        exact spectrumPart_spectrums_ne s dat a b hb
      · rw [statusPart_runtimeStatus_ne _ dat a b hb,
            spectrumPart_runtimeStatus]
  · intro s dat hdi
    unfold updateSpectrum
    rcases hdi with h | h
    · rw [h]
    · rw [h]
      rfl

theorem updateSpectrum_device_isolation_witness :
    lookupKey
        (updateSpectrum
          { initialStore with
            spectrums := [("B", ⟨[1], [2]⟩)] }
          { device_id := some "A", frequencies := some [5], power := some [6],
            overflow := none, underflow := none }).spectrums "B"
      = lookupKey ({ initialStore with
            spectrums := [("B", ⟨[1], [2]⟩)] } : Store).spectrums "B" :=
  (updateSpectrum_device_isolation.1
    { initialStore with spectrums := [("B", ⟨[1], [2]⟩)] }
    { device_id := some "A", frequencies := some [5], power := some [6],
      overflow := none, underflow := none }
    "A" "B" rfl (by decide)).1

/-! ## C5: runtime-flag ingestion -/

/-- C5 counterexample: a broadcast frame with `type: "status"` carrying
`overflow: true` for device `"A"` does *not* update the stored runtime
flags — the `updateStatus` action is a no-op (its body is commented out in
the source), so the overflow flag stays `false` although the frame
supplied a boolean for it. -/
theorem statusFrame_does_not_update_flags :
    (handleMessage
        { initialStore with runtimeStatus := [("A", ⟨false, false⟩)] }
        { type := some "status", device_id := some "A",
          overflow := some true })
      = { initialStore with runtimeStatus := [("A", ⟨false, false⟩)] } ∧
    lookupKey
        (handleMessage
          { initialStore with runtimeStatus := [("A", ⟨false, false⟩)] }
          { type := some "status", device_id := some "A",
            overflow := some true }).runtimeStatus "A"
      = some ⟨false, false⟩ := by
  constructor <;> rfl

/-- C5 (amended): a `type:"status"` frame with no `cmd` field leaves the
store completely unchanged (flag ingestion does not happen on status
frames); the runtime flags are instead ingested by `updateSpectrum`:
whenever a payload with a device id carries at least one boolean flag,
each flag is overwritten exactly when supplied (`Option.getD`), an
omitted flag keeps its prior value, other devices' flags are untouched,
and the packet queue, pending commands, timers and resolutions are all
unchanged. -/
theorem statusFlags_sticky_by_omission :
    (∀ (s : Store) (f : Frame), f.type = some "status" → f.cmd = none →
        handleMessage s f = s) ∧
    (∀ (s : Store) (dat : SpectrumPayload) (d : String),
        dat.device_id = some d → d ≠ "" →
        (dat.overflow.isSome ∨ dat.underflow.isSome) →
        lookupKey (updateSpectrum s dat).runtimeStatus d =
          some { overflow := dat.overflow.getD
                   (((lookupKey s.runtimeStatus d).getD ⟨false, false⟩).overflow),
                 underflow := dat.underflow.getD
                   (((lookupKey s.runtimeStatus d).getD ⟨false, false⟩).underflow) } ∧
        (∀ b, b ≠ d →
          lookupKey (updateSpectrum s dat).runtimeStatus b
            = lookupKey s.runtimeStatus b) ∧
        (updateSpectrum s dat).decodedPackets = s.decodedPackets ∧
        (updateSpectrum s dat).pendingCommands = s.pendingCommands ∧
        (updateSpectrum s dat).timers = s.timers ∧
        (updateSpectrum s dat).resolutions = s.resolutions) := by
  constructor
  · intro s f ht hc
    unfold handleMessage resolveStep broadcastStep
    rw [hc, ht]
    dsimp only
    rw [if_neg (by simp), if_pos rfl]
    rfl
  · intro s dat d hdi hd hflag
    have hshape := updateSpectrum_shape s dat
    obtain ⟨sp, rs, hsh⟩ := hshape
    have hflag' : (dat.overflow.isSome || dat.underflow.isSome) = true := by
      rcases hflag with h | h <;> simp [h]
    refine ⟨?_, ?_, by rw [hsh], by rw [hsh], by rw [hsh], by rw [hsh]⟩
    · unfold updateSpectrum
      rw [hdi]
      dsimp only
      rw [if_neg hd]
      unfold statusPart
      rw [if_pos hflag']
      dsimp only
      rw [lookupKey_setKey, if_pos rfl, spectrumPart_runtimeStatus,
          mergeFlags_eq]
    · intro b hb
      unfold updateSpectrum
      rw [hdi]
      dsimp only
      rw [if_neg hd]
      rw [statusPart_runtimeStatus_ne _ dat d b hb, spectrumPart_runtimeStatus]

theorem statusFlags_sticky_by_omission_witness :
    lookupKey
        (updateSpectrum
          { initialStore with runtimeStatus := [("A", ⟨false, true⟩)] }
          { device_id := some "A", frequencies := none, power := none,
            overflow := some true, underflow := none }).runtimeStatus "A"
      = some ⟨true, true⟩ := by
  have h :=
    (statusFlags_sticky_by_omission.2
      { initialStore with runtimeStatus := [("A", ⟨false, true⟩)] }
      { device_id := some "A", frequencies := none, power := none,
        overflow := some true, underflow := none }
      "A" rfl (by decide) (Or.inl (by decide))).1
  simpa using h

/-! ## Helper lemmas: the correlator -/

theorem broadcastStep_pending (s : Store) (msg : Frame) :
    (broadcastStep s msg).pendingCommands = s.pendingCommands := by
  obtain ⟨sp, rs, dq, h⟩ := broadcastStep_shape s msg
  rw [h]

theorem broadcastStep_timers (s : Store) (msg : Frame) :
    (broadcastStep s msg).timers = s.timers := by
  obtain ⟨sp, rs, dq, h⟩ := broadcastStep_shape s msg
  rw [h]

theorem broadcastStep_resolutions (s : Store) (msg : Frame) :
    (broadcastStep s msg).resolutions = s.resolutions := by
  obtain ⟨sp, rs, dq, h⟩ := broadcastStep_shape s msg
  rw [h]

theorem resolveStep_none (s : Store) (msg : Frame) (hc : msg.cmd = none) :
    resolveStep s msg = s := by
  unfold resolveStep
  rw [hc]

theorem resolveStep_empty (s : Store) (msg : Frame) (hc : msg.cmd = some "") :
    resolveStep s msg = s := by
  unfold resolveStep
  rw [hc]
  dsimp only
  rw [if_pos rfl]

theorem resolveStep_nopending (s : Store) (msg : Frame) (k : String)
    (hc : msg.cmd = some k) (hk : k ≠ "")
    (hp : lookupKey s.pendingCommands k = none) :
    resolveStep s msg = s := by
  unfold resolveStep
  rw [hc]
  dsimp only
  rw [if_neg hk, hp]

theorem resolveStep_hit (s : Store) (msg : Frame) (k : String) (id : Nat)
    (hc : msg.cmd = some k) (hk : k ≠ "")
    (hp : lookupKey s.pendingCommands k = some id) :
    resolveStep s msg =
      { s with
        pendingCommands := deleteKey s.pendingCommands k,
        timers := s.timers.filter (fun t => !(t.id == id)),
        resolutions := s.resolutions ++ [(id, msg)] } := by
  unfold resolveStep
  rw [hc]
  dsimp only
  rw [if_neg hk, hp]

/-! ## C1: command correlation by name -/

/-- C1: when a pending command is registered under `name` (and, as in
every reachable state, the caller is registered under no other name), an
inbound frame whose `cmd` equals `name` resolves that caller with exactly
that frame and removes the pending entry, while a frame with any other
`cmd` name leaves the entry in place and delivers nothing to that
caller. -/
theorem command_correlation :
    ∀ (s : Store) (name : String) (id : Nat) (f : Frame),
      name ≠ "" →
      lookupKey s.pendingCommands name = some id →
      (∀ k, lookupKey s.pendingCommands k = some id → k = name) →
      ((f.cmd = some name →
          (handleMessage s f).resolutions = s.resolutions ++ [(id, f)] ∧
          lookupKey (handleMessage s f).pendingCommands name = none) ∧
       (∀ other, f.cmd = some other → other ≠ name →
          lookupKey (handleMessage s f).pendingCommands name = some id ∧
          ((handleMessage s f).resolutions).filter (fun p => p.1 == id)
            = s.resolutions.filter (fun p => p.1 == id))) := by
  intro s name id f hn hp huniq
  constructor
  · intro hc
    unfold handleMessage
    rw [broadcastStep_resolutions, broadcastStep_pending,
        resolveStep_hit s f name id hc hn hp]
    refine ⟨rfl, ?_⟩
    dsimp only
    rw [lookupKey_deleteKey, if_pos rfl]
  · intro other hc hne
    unfold handleMessage
    rw [broadcastStep_resolutions, broadcastStep_pending]
    by_cases ho : other = ""
    · rw [resolveStep_empty s f (ho ▸ hc)]
      exact ⟨hp, rfl⟩
    · cases hlo : lookupKey s.pendingCommands other with
      | none =>
        rw [resolveStep_nopending s f other hc ho hlo]
        exact ⟨hp, rfl⟩
      | some id2 =>
        have hid2 : (id2 == id) = false := by
          simp only [beq_eq_false_iff_ne, ne_eq]
          intro h
          exact hne (huniq other (h ▸ hlo))
        rw [resolveStep_hit s f other id2 hc ho hlo]
        dsimp only
        constructor
        · rw [lookupKey_deleteKey, if_neg (Ne.symm hne)]
          exact hp
        · rw [List.filter_append]
          simp [hid2]

theorem command_correlation_witness :
    ((handleMessage
        { initialStore with pendingCommands := [("connect_device", 7)] }
        { cmd := some "connect_device", success := some true }).resolutions
      = [(7, { cmd := some "connect_device", success := some true })]) ∧
    (lookupKey
        (handleMessage
          { initialStore with pendingCommands := [("connect_device", 7)] }
          { cmd := some "scan_devices" }).pendingCommands "connect_device"
      = some 7) := by
  have h :=
    command_correlation
      { initialStore with pendingCommands := [("connect_device", 7)] }
      "connect_device" 7
      { cmd := some "connect_device", success := some true }
      (by decide) (by decide)
      (by
        intro k hk
        by_cases hkc : k = "connect_device"
        · exact hkc
        · exfalso
          have : lookupKey [("connect_device", 7)] k = none := by
            unfold lookupKey
            rw [List.find?_cons_of_neg _ (by simp; exact fun hh => hkc hh.symm)]
            rfl
          rw [this] at hk
          exact Option.noConfusion hk)
  have h2 :=
    command_correlation
      { initialStore with pendingCommands := [("connect_device", 7)] }
      "connect_device" 7
      { cmd := some "scan_devices" }
      (by decide) (by decide)
      (by
        intro k hk
        by_cases hkc : k = "connect_device"
        · exact hkc
        · exfalso
          have : lookupKey [("connect_device", 7)] k = none := by
            unfold lookupKey
            rw [List.find?_cons_of_neg _ (by simp; exact fun hh => hkc hh.symm)]
            rfl
          rw [this] at hk
          exact Option.noConfusion hk)
  refine ⟨?_, (h2.2 "scan_devices" rfl (by decide)).1⟩
  have h1 := (h.1 rfl).1
  rw [h1]
  rfl

/-! ## C2: command timeout -/

theorem sendCommand_open (s : Store) (id : Nat) (c : String)
    (hws : s.wsOpen = true) :
    sendCommand s id c =
      { s with
        timers := s.timers ++ [⟨id, c, TIMEOUT_MS⟩],
        pendingCommands := setKey s.pendingCommands c id } := by
  unfold sendCommand
  rw [hws]
  rfl

/-- C2: issuing a command over an open channel schedules a timeout of
exactly 10000 ms; when that timeout fires, the caller is resolved with a
synthetic response whose `success` is `false` and whose `error` is the
timeout message, the pending entry under the command name is removed, and
a response frame for that name arriving afterwards resolves nothing and
leaves the pending map without the entry (a no-op for that caller). -/
theorem command_timeout :
    ∀ (s : Store) (id : Nat) (c : String),
      s.wsOpen = true →
      s.timers.find? (fun t => t.id == id) = none →
      ((sendCommand s id c).timers.find? (fun t => t.id == id)
          = some ⟨id, c, TIMEOUT_MS⟩ ∧
       TIMEOUT_MS = 10000) ∧
      ((fireTimeout (sendCommand s id c) id).resolutions
          = (sendCommand s id c).resolutions
              ++ [(id, failureFrame c "命令超时")] ∧
       (failureFrame c "命令超时").success = some false ∧
       (failureFrame c "命令超时").error = some "命令超时" ∧
       (failureFrame c "命令超时").cmd = some c) ∧
      lookupKey (fireTimeout (sendCommand s id c) id).pendingCommands c
          = none ∧
      (∀ f : Frame, f.cmd = some c →
        (handleMessage (fireTimeout (sendCommand s id c) id) f).resolutions
            = (fireTimeout (sendCommand s id c) id).resolutions ∧
        lookupKey
            (handleMessage (fireTimeout (sendCommand s id c) id) f).pendingCommands
            c
          = none) := by
  intro s id c hws hfind
  have hsend := sendCommand_open s id c hws
  have htfind : (sendCommand s id c).timers.find? (fun t => t.id == id)
      = some ⟨id, c, TIMEOUT_MS⟩ := by
    rw [hsend]
    dsimp only
    rw [List.find?_append, hfind, Option.none_or,
        List.find?_cons_of_pos _ (by simp)]
  have hfire : fireTimeout (sendCommand s id c) id =
      { sendCommand s id c with
        timers := (sendCommand s id c).timers.filter (fun u => !(u.id == id)),
        pendingCommands :=
          deleteKey (sendCommand s id c).pendingCommands c,
        resolutions := (sendCommand s id c).resolutions
          ++ [(id, failureFrame c "命令超时")] } := by
    unfold fireTimeout
    rw [htfind]
  have hpend : lookupKey (fireTimeout (sendCommand s id c) id).pendingCommands c
      = none := by
    rw [hfire]
    dsimp only
    rw [lookupKey_deleteKey, if_pos rfl]
  refine ⟨⟨htfind, rfl⟩, ⟨by rw [hfire], rfl, rfl, rfl⟩, hpend, ?_⟩
  intro f hc
  have hres : resolveStep (fireTimeout (sendCommand s id c) id) f
      = fireTimeout (sendCommand s id c) id := by
    by_cases hce : c = ""
    · exact resolveStep_empty _ f (hce ▸ hc)
    · exact resolveStep_nopending _ f c hc hce hpend
  unfold handleMessage
  rw [broadcastStep_resolutions, broadcastStep_pending, hres]
  exact ⟨rfl, hpend⟩

theorem command_timeout_witness :
    ((sendCommand initialStore 1 "connect_device").timers.find?
        (fun t => t.id == 1) = some ⟨1, "connect_device", TIMEOUT_MS⟩ ∧
     TIMEOUT_MS = 10000) ∧
    ((fireTimeout (sendCommand initialStore 1 "connect_device") 1).resolutions
        = (sendCommand initialStore 1 "connect_device").resolutions
            ++ [(1, failureFrame "connect_device" "命令超时")] ∧
     (failureFrame "connect_device" "命令超时").success = some false ∧
     (failureFrame "connect_device" "命令超时").error = some "命令超时" ∧
     (failureFrame "connect_device" "命令超时").cmd = some "connect_device") ∧
    lookupKey
        (fireTimeout (sendCommand initialStore 1 "connect_device") 1).pendingCommands
        "connect_device"
      = none ∧
    (∀ f : Frame, f.cmd = some "connect_device" →
      (handleMessage (fireTimeout (sendCommand initialStore 1 "connect_device") 1)
          f).resolutions
        = (fireTimeout (sendCommand initialStore 1 "connect_device") 1).resolutions ∧
      lookupKey
          (handleMessage
            (fireTimeout (sendCommand initialStore 1 "connect_device") 1)
            f).pendingCommands
          "connect_device"
        = none) :=
  command_timeout initialStore 1 "connect_device" rfl rfl

/-! ## C10: every call is resolved exactly once, with its own command name -/

theorem sendCommand_closed (s : Store) (id : Nat) (c : String)
    (hws : s.wsOpen = false) :
    sendCommand s id c =
      { s with resolutions :=
          s.resolutions ++ [(id, failureFrame c "WebSocket 未连接")] } := by
  unfold sendCommand
  rw [hws]
  rfl

theorem callInv_congr (id : Nat) (c : String) (s s2 : Store)
    (hp : s2.pendingCommands = s.pendingCommands)
    (ht : s2.timers = s.timers)
    (hr : s2.resolutions = s.resolutions)
    (h : CallInv id c s) : CallInv id c s2 := by
  have hcount : countRes s2 id = countRes s id := by
    unfold countRes
    rw [hr]
  refine ⟨?_, ?_, ?_, ?_, ?_⟩
  · intro p hmem h1
    rw [hr] at hmem
    exact h.resCmd p hmem h1
  · rw [hcount]
    exact h.resLe
  · intro h0
    rw [hcount] at h0
    rw [ht]
    exact h.timerOfUnresolved h0
  · intro hs
    rw [ht] at hs
    rw [hcount]
    exact h.unresolvedOfTimer hs
  · intro k hk
    rw [hp] at hk
    rw [hcount]
    exact h.pendKey k hk

theorem no_res_of_countRes_zero (s : Store) (id : Nat)
    (h1 : countRes s id = 0) :
    ∀ p ∈ s.resolutions, (p.1 == id) = false := by
  intro p hp
  have hfil : s.resolutions.filter (fun p => p.1 == id) = [] :=
    List.length_eq_zero.mp h1
  cases hb : (p.1 == id) with
  | false => rfl
  | true =>
    have hm : p ∈ s.resolutions.filter (fun p => p.1 == id) :=
      List.mem_filter.mpr ⟨hp, hb⟩
    rw [hfil] at hm
    exact absurd hm (List.not_mem_nil p)

theorem callInv_send (id : Nat) (c : String) (s : Store)
    (h1 : countRes s id = 0)
    (h2 : s.timers.find? (fun t => t.id == id) = none)
    (h3 : ∀ k, lookupKey s.pendingCommands k ≠ some id) :
    CallInv id c (sendCommand s id c) := by
  have hnores := no_res_of_countRes_zero s id h1
  have hfil : s.resolutions.filter (fun p => p.1 == id) = [] :=
    List.length_eq_zero.mp h1
  cases hws : s.wsOpen with
  | false =>
    rw [sendCommand_closed s id c hws]
    have hcnew :
        countRes { s with resolutions :=
          s.resolutions ++ [(id, failureFrame c "WebSocket 未连接")] } id = 1 := by
      simp [countRes, List.filter_append, hfil]
    refine ⟨?_, ?_, ?_, ?_, ?_⟩
    · intro p hp hpid
      rcases List.mem_append.mp hp with h | h
      · have := hnores p h
        rw [hpid] at this
        simp at this
      · have hpv : p = (id, failureFrame c "WebSocket 未连接") := by
          simpa using h
        rw [hpv]
        rfl
    · rw [hcnew]
    · intro h0
      rw [hcnew] at h0
      exact absurd h0 one_ne_zero
    · intro hs2
      rw [h2] at hs2
      simp at hs2
    · intro k hk
      exact absurd hk (h3 k)
  | true =>
    rw [sendCommand_open s id c hws]
    have hrescmd : ∀ p ∈ s.resolutions, p.1 = id → p.2.cmd = some c := by
      intro p hp hpid
      have := hnores p hp
      rw [hpid] at this
      simp at this
    refine ⟨hrescmd, h1.le.trans (by omega), ?_, ?_, ?_⟩
    · intro _
      dsimp only
      rw [List.find?_append, h2, Option.none_or,
          List.find?_cons_of_pos _ (by simp)]
    · intro _
      exact h1
    · intro k hk
      dsimp only at hk
      rw [lookupKey_setKey] at hk
      by_cases hkc : k = c
      · exact ⟨hkc, h1⟩
      · rw [if_neg hkc] at hk
        exact absurd hk (h3 k)

theorem callInv_step (id : Nat) (c : String) (s : Store) (e : Event)
    (hinv : CallInv id c s)
    (hsend : ∀ i' c', e = Event.send i' c' → i' ≠ id) :
    CallInv id c (step s e) := by
  cases e with
  | send i' c' =>
    have hne : i' ≠ id := hsend i' c' rfl
    have hbeq : (i' == id) = false := by simp [hne]
    show CallInv id c (sendCommand s i' c')
    cases hws : s.wsOpen with
    | false =>
      rw [sendCommand_closed s i' c' hws]
      have hcount :
          countRes { s with resolutions :=
            s.resolutions ++ [(i', failureFrame c' "WebSocket 未连接")] } id
          = countRes s id := by
        simp [countRes, List.filter_append, hbeq]
      refine ⟨?_, ?_, ?_, ?_, ?_⟩
      · intro p hp hpid
        rcases List.mem_append.mp hp with h | h
        · exact hinv.resCmd p h hpid
        · have hpv : p = (i', failureFrame c' "WebSocket 未连接") := by
            simpa using h
          rw [hpv] at hpid
          exact absurd hpid hne
      · rw [hcount]
        exact hinv.resLe
      · intro h0
        rw [hcount] at h0
        exact hinv.timerOfUnresolved h0
      · intro hs2
        rw [hcount]
        exact hinv.unresolvedOfTimer hs2
      · intro k hk
        rw [hcount]
        exact hinv.pendKey k hk
    | true =>
      rw [sendCommand_open s i' c' hws]
      refine ⟨hinv.resCmd, hinv.resLe, ?_, ?_, ?_⟩
      · intro h0
        have hsome := hinv.timerOfUnresolved h0
        dsimp only
        rw [List.find?_append, hsome]
        rfl
      · intro hs2
        dsimp only at hs2
        rw [List.find?_append] at hs2
        cases hf : s.timers.find? (fun t => t.id == id) with
        | some t =>
          exact hinv.unresolvedOfTimer (by rw [hf]; rfl)
        | none =>
          rw [hf, Option.none_or,
              List.find?_cons_of_neg _ (by simp [hne])] at hs2
          simp at hs2
      · intro k hk
        dsimp only at hk
        rw [lookupKey_setKey] at hk
        by_cases hkc : k = c'
        · rw [if_pos hkc] at hk
          have : i' = id := by
            have := Option.some.inj hk
            exact this
          exact absurd this hne
        · rw [if_neg hkc] at hk
          exact hinv.pendKey k hk
  | msg f =>
    show CallInv id c (handleMessage s f)
    unfold handleMessage
    apply callInv_congr id c (resolveStep s f) _
      (broadcastStep_pending _ f) (broadcastStep_timers _ f)
      (broadcastStep_resolutions _ f)
    cases hc : f.cmd with
    | none =>
      rw [resolveStep_none s f hc]
      exact hinv
    | some k =>
      by_cases hk : k = ""
      · rw [resolveStep_empty s f (hk ▸ hc)]
        exact hinv
      · cases hlo : lookupKey s.pendingCommands k with
        | none =>
          rw [resolveStep_nopending s f k hc hk hlo]
          exact hinv
        | some id2 =>
          rw [resolveStep_hit s f k id2 hc hk hlo]
          by_cases hid : id2 = id
          · subst hid
            obtain ⟨hkc, hcount0⟩ := hinv.pendKey k hlo
            subst hkc
            have hfil : s.resolutions.filter (fun p => p.1 == id2) = [] :=
              List.length_eq_zero.mp hcount0
            have hcnew :
                countRes { s with
                  pendingCommands := deleteKey s.pendingCommands k,
                  timers := s.timers.filter (fun t => !(t.id == id2)),
                  resolutions := s.resolutions ++ [(id2, f)] } id2 = 1 := by
              simp [countRes, List.filter_append, hfil]
            refine ⟨?_, ?_, ?_, ?_, ?_⟩
            · intro p hp hpid
              rcases List.mem_append.mp hp with h | h
              · exact hinv.resCmd p h hpid
              · have hpv : p = (id2, f) := by simpa using h
                rw [hpv]
                exact hc
            · rw [hcnew]
            · intro h0
              rw [hcnew] at h0
              exact absurd h0 one_ne_zero
            · intro hs2
              dsimp only at hs2
              rw [find?_filter_ne_self] at hs2
              simp at hs2
            · intro k' hk'
              dsimp only at hk'
              rw [lookupKey_deleteKey] at hk'
              by_cases hk'k : k' = k
              · rw [if_pos hk'k] at hk'
                exact Option.noConfusion hk'
              · rw [if_neg hk'k] at hk'
                obtain ⟨hk'c, _⟩ := hinv.pendKey k' hk'
                exact absurd hk'c hk'k
          · have hbeq2 : (id2 == id) = false := by simp [hid]
            have hcount :
                countRes { s with
                  pendingCommands := deleteKey s.pendingCommands k,
                  timers := s.timers.filter (fun t => !(t.id == id2)),
                  resolutions := s.resolutions ++ [(id2, f)] } id
                = countRes s id := by
              simp [countRes, List.filter_append, hbeq2]
            have hfimp : ∀ x : Timer, (x.id == id) = true →
                (!(x.id == id2)) = true := by
              intro x hx
              have hxid : x.id = id := by simpa using hx
              simp [hxid]
              exact fun hh => hid hh.symm
            refine ⟨?_, ?_, ?_, ?_, ?_⟩
            · intro p hp hpid
              rcases List.mem_append.mp hp with h | h
              · exact hinv.resCmd p h hpid
              · have hpv : p = (id2, f) := by simpa using h
                rw [hpv] at hpid
                exact absurd hpid hid
            · rw [hcount]
              exact hinv.resLe
            · intro h0
              rw [hcount] at h0
              dsimp only
              rw [find?_filter_imp _ _ _ hfimp]
              exact hinv.timerOfUnresolved h0
            · intro hs2
              dsimp only at hs2
              rw [find?_filter_imp _ _ _ hfimp] at hs2
              rw [hcount]
              exact hinv.unresolvedOfTimer hs2
            · intro k' hk'
              dsimp only at hk'
              rw [lookupKey_deleteKey] at hk'
              rw [hcount]
              by_cases hk'k : k' = k
              · rw [if_pos hk'k] at hk'
                exact Option.noConfusion hk'
              · rw [if_neg hk'k] at hk'
                exact hinv.pendKey k' hk'
  | fire i' =>
    show CallInv id c (fireTimeout s i')
    unfold fireTimeout
    cases hf : s.timers.find? (fun t => t.id == i') with
    | none => exact hinv
    | some t =>
      dsimp only
      by_cases hii : i' = id
      · subst hii
        have hcount0 : countRes s i' = 0 :=
          hinv.unresolvedOfTimer (by rw [hf]; rfl)
        have hsome := hinv.timerOfUnresolved hcount0
        rw [hf] at hsome
        have htv : t = ⟨i', c, TIMEOUT_MS⟩ := Option.some.inj hsome
        have htc : t.cmd = c := by rw [htv]
        have hfil : s.resolutions.filter (fun p => p.1 == i') = [] :=
          List.length_eq_zero.mp hcount0
        have hcnew :
            countRes { s with
              timers := s.timers.filter (fun u => !(u.id == i')),
              pendingCommands := deleteKey s.pendingCommands t.cmd,
              resolutions := s.resolutions ++ [(i', failureFrame t.cmd "命令超时")] } i'
            = 1 := by
          simp [countRes, List.filter_append, hfil]
        refine ⟨?_, ?_, ?_, ?_, ?_⟩
        · intro p hp hpid
          rcases List.mem_append.mp hp with h | h
          · exact hinv.resCmd p h hpid
          · have hpv : p = (i', failureFrame t.cmd "命令超时") := by
              simpa using h
            rw [hpv]
            show (failureFrame t.cmd "命令超时").cmd = some c
            rw [htc]
            rfl
        · rw [hcnew]
        · intro h0
          rw [hcnew] at h0
          exact absurd h0 one_ne_zero
        · intro hs2
          dsimp only at hs2
          rw [find?_filter_ne_self] at hs2
          simp at hs2
        · intro k' hk'
          dsimp only at hk'
          rw [lookupKey_deleteKey] at hk'
          by_cases hk'k : k' = t.cmd
          · rw [if_pos hk'k] at hk'
            exact Option.noConfusion hk'
          · rw [if_neg hk'k] at hk'
            obtain ⟨hk'c, _⟩ := hinv.pendKey k' hk'
            exact absurd (hk'c.trans htc.symm) hk'k
      · have hbeq2 : ∀ u : Timer, (u.id == id) = true → (!(u.id == i')) = true := by
          intro u hu
          have huid : u.id = id := by simpa using hu
          simp [huid]
          exact fun hh => hii hh.symm
        have hfr : (i' == id) = false := by simp [hii]
        have hcount :
            countRes { s with
              timers := s.timers.filter (fun u => !(u.id == i')),
              pendingCommands := deleteKey s.pendingCommands t.cmd,
              resolutions := s.resolutions ++ [(i', failureFrame t.cmd "命令超时")] } id
            = countRes s id := by
          simp [countRes, List.filter_append, hfr]
        refine ⟨?_, ?_, ?_, ?_, ?_⟩
        · intro p hp hpid
          rcases List.mem_append.mp hp with h | h
          · exact hinv.resCmd p h hpid
          · have hpv : p = (i', failureFrame t.cmd "命令超时") := by
              simpa using h
            rw [hpv] at hpid
            exact absurd hpid hii
        · rw [hcount]
          exact hinv.resLe
        · intro h0
          rw [hcount] at h0
          dsimp only
          rw [find?_filter_imp _ _ _ hbeq2]
          exact hinv.timerOfUnresolved h0
        · intro hs2
          dsimp only at hs2
          rw [find?_filter_imp _ _ _ hbeq2] at hs2
          rw [hcount]
          exact hinv.unresolvedOfTimer hs2
        · intro k' hk'
          dsimp only at hk'
          rw [lookupKey_deleteKey] at hk'
          rw [hcount]
          by_cases hk'k : k' = t.cmd
          · rw [if_pos hk'k] at hk'
            exact Option.noConfusion hk'
          · rw [if_neg hk'k] at hk'
            exact hinv.pendKey k' hk'

theorem callInv_run (id : Nat) (c : String) (s : Store) (es : List Event)
    (hinv : CallInv id c s)
    (hsend : ∀ i' c', Event.send i' c' ∈ es → i' ≠ id) :
    CallInv id c (run s es) := by
  induction es generalizing s with
  | nil => exact hinv
  | cons e es ih =>
    show CallInv id c (run (step s e) es)
    apply ih (step s e)
    · apply callInv_step id c s e hinv
      intro i' c' he
      exact hsend i' c' (by rw [he]; exact List.mem_cons_self _ _)
    · intro i' c' hm
      exact hsend i' c' (List.mem_cons_of_mem _ hm)

/-- C10: once `sendCommand` has been issued for a fresh caller, over every
subsequent event interleaving the caller is resolved at most once, every
resolution it receives is a response object whose `cmd` equals the
requested command name (the model has no rejection at all, mirroring the
source, whose `reject` is never invoked), an unresolved caller always
still has its 10-second timeout scheduled, and once that timer is gone
(fired or cleared) the caller has been resolved exactly once. -/
theorem sendCommand_resolves_exactly_once :
    ∀ (s : Store) (id : Nat) (c : String) (es : List Event),
      countRes s id = 0 →
      s.timers.find? (fun t => t.id == id) = none →
      (∀ k, lookupKey s.pendingCommands k ≠ some id) →
      (∀ i' c', Event.send i' c' ∈ es → i' ≠ id) →
      countRes (run (sendCommand s id c) es) id ≤ 1 ∧
      (∀ p ∈ (run (sendCommand s id c) es).resolutions,
          p.1 = id → p.2.cmd = some c) ∧
      (countRes (run (sendCommand s id c) es) id = 0 →
        (run (sendCommand s id c) es).timers.find? (fun t => t.id == id)
          = some ⟨id, c, TIMEOUT_MS⟩) ∧
      ((run (sendCommand s id c) es).timers.find? (fun t => t.id == id) = none →
        countRes (run (sendCommand s id c) es) id = 1) := by
  intro s id c es h1 h2 h3 h4
  have hinv := callInv_run id c _ es (callInv_send id c s h1 h2 h3) h4
  refine ⟨hinv.resLe, hinv.resCmd, hinv.timerOfUnresolved, ?_⟩
  intro hnone
  by_cases h0 : countRes (run (sendCommand s id c) es) id = 0
  · rw [hinv.timerOfUnresolved h0] at hnone
    exact Option.noConfusion hnone
  · have := hinv.resLe
    omega

theorem sendCommand_resolves_exactly_once_witness :
    countRes (run (sendCommand initialStore 0 "connect_device")
        [Event.fire 0]) 0 ≤ 1 ∧
    (∀ p ∈ (run (sendCommand initialStore 0 "connect_device")
        [Event.fire 0]).resolutions,
        p.1 = 0 → p.2.cmd = some "connect_device") ∧
    (countRes (run (sendCommand initialStore 0 "connect_device")
        [Event.fire 0]) 0 = 0 →
      (run (sendCommand initialStore 0 "connect_device")
          [Event.fire 0]).timers.find? (fun t => t.id == 0)
        = some ⟨0, "connect_device", TIMEOUT_MS⟩) ∧
    ((run (sendCommand initialStore 0 "connect_device")
        [Event.fire 0]).timers.find? (fun t => t.id == 0) = none →
      countRes (run (sendCommand initialStore 0 "connect_device")
        [Event.fire 0]) 0 = 1) :=
  sendCommand_resolves_exactly_once initialStore 0 "connect_device"
    [Event.fire 0] rfl rfl
    (by
      intro k h
      exact Option.noConfusion h)
    (by
      intro i' c' h
      rw [List.mem_singleton] at h
      exact Event.noConfusion h)

/-! ## C7: receive profile resolution and the 1 MHz bandwidth floor -/

/-- C7: selecting the named receive profile `red_jam_2` sets the receive
center frequency to 432.6 MHz (432600000 Hz) and the receive bandwidth to
the 1 MHz floor (the table value 0.61 MHz is below the floor); and for
every named profile in the table, the resulting receive bandwidth is at
least 1 MHz regardless of the table value. -/
theorem rx_profile_red_jam_2 :
    (∀ cfg : SDRConfig,
        (onRxSignalTypeChange cfg "red_jam_2").centerFreq = 432600000 ∧
        (onRxSignalTypeChange cfg "red_jam_2").bandwidth = 1000000) ∧
    (∀ (cfg : SDRConfig) (val : String) (p : ℚ × ℚ),
        rxSignalParams val = some p →
        (1000000 : ℚ) ≤ (onRxSignalTypeChange cfg val).bandwidth) := by
  constructor
  · intro cfg
    unfold onRxSignalTypeChange rxSignalParams
    rw [if_neg (by decide), if_neg (by decide), if_pos rfl]
    dsimp only
    constructor
    · norm_num
    · rw [max_eq_right (by norm_num)]
      norm_num
  · intro cfg val p hp
    unfold onRxSignalTypeChange
    rw [hp]
    dsimp only
    have h := le_max_right (p.2 * 10 ^ 6) ((10 : ℚ) ^ 6)
    have he : ((10 : ℚ) ^ 6) = 1000000 := by norm_num
    rw [he] at h
    exact h

theorem rx_profile_red_jam_2_witness :
    (1000000 : ℚ) ≤
      (onRxSignalTypeChange ⟨433500000, 2000000, 50, 4000000⟩
        "blue_jam_2").bandwidth :=
  rx_profile_red_jam_2.2 ⟨433500000, 2000000, 50, 4000000⟩ "blue_jam_2"
    (434.52, 0.61) rfl

/-! ## C3: flooring and the claimed fallback-to-zero rule -/

/-- C3 counterexample: a negative field value is *not* encoded as 0. With
`hero_x = -1` the position payload begins with the sign-carrying chunk
`-100` (JS `Math.floor(num || 0)` only zeroes the falsy value `0`, and
`(-1).toString(16)` is `"-1"`), which differs from the all-zero encoding;
out-of-range values are likewise not zeroed. -/
theorem negative_field_not_encoded_as_zero :
    toLEHex (-1) 2 = "-100" ∧
    toLEHex 0 2 = "0000" ∧
    generatedPayload .t0A01
        { manualHex := "",
          form0A01 := ⟨-1, 0, 0, 0, 0, 0, 0, 0, 0, 0, 0, 0⟩,
          form0A02 := ⟨0, 0, 0, 0, 0⟩,
          form0A04 := ⟨0, false, false, false, false, false, false, false,
            false, false, false, false⟩,
          form0A05 := ⟨⟨0, 0, 0, 0, 0, 0⟩, ⟨0, 0, 0, 0, 0, 0⟩,
            ⟨0, 0, 0, 0, 0, 0⟩, ⟨0, 0, 0, 0, 0, 0⟩, ⟨0, 0, 0, 0, 0, 0⟩⟩ }
      = "-10000000000000000000000000000000000000000000000" ∧
    generatedPayload .t0A01
        { manualHex := "",
          form0A01 := ⟨0, 0, 0, 0, 0, 0, 0, 0, 0, 0, 0, 0⟩,
          form0A02 := ⟨0, 0, 0, 0, 0⟩,
          form0A04 := ⟨0, false, false, false, false, false, false, false,
            false, false, false, false⟩,
          form0A05 := ⟨⟨0, 0, 0, 0, 0, 0⟩, ⟨0, 0, 0, 0, 0, 0⟩,
            ⟨0, 0, 0, 0, 0, 0⟩, ⟨0, 0, 0, 0, 0, 0⟩, ⟨0, 0, 0, 0, 0, 0⟩⟩ }
      = "000000000000000000000000000000000000000000000000" := by
  refine ⟨?_, ?_, ?_, ?_⟩ <;> decide

theorem floor_jsOrZero (q : ℚ) : ⌊jsOrZero q⌋ = ⌊q⌋ := by
  unfold jsOrZero
  split
  · rename_i h
    rw [h]
  · rfl

theorem chunkPairs_flatten (l : List Char) : (chunkPairs l).flatten = l := by
  match l with
  | [] => rfl
  | [a] => rfl
  | a :: b :: rest =>
    show ([a, b] :: chunkPairs rest).flatten = a :: b :: rest
    rw [List.flatten_cons, chunkPairs_flatten rest]
    rfl

theorem leReorder_length (l : List Char) : (leReorder l).length = l.length := by
  unfold leReorder
  rw [List.length_flatten, List.map_reverse, List.sum_reverse,
      ← List.length_flatten, chunkPairs_flatten]

theorem leReorder_mem (l : List Char) (x : Char) (hx : x ∈ l) :
    x ∈ leReorder l := by
  unfold leReorder
  have hx2 : x ∈ (chunkPairs l).flatten := by
    rw [chunkPairs_flatten]
    exact hx
  obtain ⟨ch, hch, hxch⟩ := List.mem_flatten.mp hx2
  exact List.mem_flatten.mpr ⟨ch, List.mem_reverse.mpr hch, hxch⟩

theorem padStart_length (s : String) (n : Nat) (c : Char) :
    (padStart s n c).length = max n s.length := by
  unfold padStart
  rw [String.length_mk, List.length_append, List.length_replicate]
  show n - s.length + s.data.length = max n s.length
  have : s.data.length = s.length := rfl
  rw [this]
  omega

/-- C3 (amended): every numeric input is floored to an integer before
encoding (the output depends only on `⌊q⌋`), encoding is total and always
emits a string of at least the full field width (no exception is raised),
but negative values are not replaced by 0: a negative input produces a
hex string carrying a minus sign. -/
theorem toLEHex_floors_and_is_total :
    (∀ (q : ℚ) (b : Nat), toLEHex q b = toLEHex ((⌊q⌋ : ℤ) : ℚ) b) ∧
    (∀ (q : ℚ) (b : Nat), b * 2 ≤ (toLEHex q b).length) ∧
    (∀ (q : ℚ) (b : Nat), ⌊q⌋ < 0 → '-' ∈ (toLEHex q b).data) := by
  refine ⟨?_, ?_, ?_⟩
  · intro q b
    unfold toLEHex
    rw [floor_jsOrZero, floor_jsOrZero, Int.floor_intCast]
  · intro q b
    unfold toLEHex
    rw [String.length_mk, leReorder_length]
    show b * 2 ≤ (padStart (intToHex ⌊jsOrZero q⌋) (b * 2) '0').length
    rw [padStart_length]
    omega
  · intro q b hneg
    unfold toLEHex
    show '-' ∈ leReorder (padStart (intToHex ⌊jsOrZero q⌋) (b * 2) '0').data
    apply leReorder_mem
    unfold padStart
    show '-' ∈ (List.replicate (b * 2 - (intToHex ⌊jsOrZero q⌋).length) '0'
      ++ (intToHex ⌊jsOrZero q⌋).data)
    rw [List.mem_append]
    right
    rw [floor_jsOrZero]
    unfold intToHex
    rw [if_pos hneg, String.data_append]
    exact List.mem_append.mpr (Or.inl (by decide))

theorem toLEHex_floors_and_is_total_witness :
    '-' ∈ (toLEHex (-1) 2).data :=
  toLEHex_floors_and_is_total.2.2 (-1) 2 (by decide)

/-! ## C4: raw mode -/

/-- C4 counterexample: raw mode performs no length validation. The input
`"a1 b2 c"` strips to the odd-length `"A1B2C"` (5 hex digits), which is
emitted as the payload unchanged — no caller-visible error is produced
and generation is not aborted. -/
theorem raw_odd_length_passes_through :
    generatedPayload .raw
        { manualHex := "a1 b2 c",
          form0A01 := ⟨0, 0, 0, 0, 0, 0, 0, 0, 0, 0, 0, 0⟩,
          form0A02 := ⟨0, 0, 0, 0, 0⟩,
          form0A04 := ⟨0, false, false, false, false, false, false, false,
            false, false, false, false⟩,
          form0A05 := ⟨⟨0, 0, 0, 0, 0, 0⟩, ⟨0, 0, 0, 0, 0, 0⟩,
            ⟨0, 0, 0, 0, 0, 0⟩, ⟨0, 0, 0, 0, 0, 0⟩, ⟨0, 0, 0, 0, 0, 0⟩⟩ }
      = "A1B2C" ∧
    ("A1B2C" : String).length % 2 = 1 := by
  constructor <;> decide

/-- C4 (amended): raw mode outputs the operator string with whitespace
stripped and letters uppercased, unmodified otherwise; it applies no
length validation: for every input the emitted payload has exactly the
length of the stripped input, and in particular an input with an odd
number of non-whitespace characters still yields a (nonempty, odd-length)
payload rather than an error. -/
theorem raw_mode_strips_and_uppercases :
    (∀ fs : BroadcastForms,
        (generatedPayload .raw fs).data
          = (fs.manualHex.data.filter
              (fun ch => !(jsIsWhitespace ch))).map Char.toUpper) ∧
    (∀ fs : BroadcastForms,
        (generatedPayload .raw fs).length
          = (fs.manualHex.data.filter
              (fun ch => !(jsIsWhitespace ch))).length) ∧
    (∀ fs : BroadcastForms,
        (fs.manualHex.data.filter
            (fun ch => !(jsIsWhitespace ch))).length % 2 = 1 →
        (generatedPayload .raw fs).length % 2 = 1 ∧
        generatedPayload .raw fs ≠ "") := by
  have hdata : ∀ fs : BroadcastForms,
      (generatedPayload .raw fs).data
        = (fs.manualHex.data.filter
            (fun ch => !(jsIsWhitespace ch))).map Char.toUpper := by
    intro fs
    rfl
  have hlen : ∀ fs : BroadcastForms,
      (generatedPayload .raw fs).length
        = (fs.manualHex.data.filter
            (fun ch => !(jsIsWhitespace ch))).length := by
    intro fs
    show (generatedPayload .raw fs).data.length = _
    rw [hdata fs, List.length_map]
  refine ⟨hdata, hlen, ?_⟩
  intro fs hodd
  refine ⟨by rw [hlen fs]; exact hodd, ?_⟩
  intro hemp
  have h0 : (generatedPayload .raw fs).length = 0 := by
    rw [hemp]
    rfl
  rw [hlen fs] at h0
  rw [h0] at hodd
  exact absurd hodd (by decide)

theorem raw_mode_strips_and_uppercases_witness :
    (generatedPayload .raw
        { manualHex := " 0ab",
          form0A01 := ⟨0, 0, 0, 0, 0, 0, 0, 0, 0, 0, 0, 0⟩,
          form0A02 := ⟨0, 0, 0, 0, 0⟩,
          form0A04 := ⟨0, false, false, false, false, false, false, false,
            false, false, false, false⟩,
          form0A05 := ⟨⟨0, 0, 0, 0, 0, 0⟩, ⟨0, 0, 0, 0, 0, 0⟩,
            ⟨0, 0, 0, 0, 0, 0⟩, ⟨0, 0, 0, 0, 0, 0⟩,
            ⟨0, 0, 0, 0, 0, 0⟩⟩ }).length % 2 = 1 :=
  (raw_mode_strips_and_uppercases.2.2
    { manualHex := " 0ab",
      form0A01 := ⟨0, 0, 0, 0, 0, 0, 0, 0, 0, 0, 0, 0⟩,
      form0A02 := ⟨0, 0, 0, 0, 0⟩,
      form0A04 := ⟨0, false, false, false, false, false, false, false,
        false, false, false, false⟩,
      form0A05 := ⟨⟨0, 0, 0, 0, 0, 0⟩, ⟨0, 0, 0, 0, 0, 0⟩,
        ⟨0, 0, 0, 0, 0, 0⟩, ⟨0, 0, 0, 0, 0, 0⟩, ⟨0, 0, 0, 0, 0, 0⟩⟩ }
    (by decide)).1

/-! ## C6: fixed encoded lengths -/

theorem natToHexAux_length (fuel : Nat) :
    ∀ (k n : Nat) (acc : List Char), n < 16 ^ k →
      (natToHexAux fuel n acc).length ≤ k + acc.length := by
  induction fuel with
  | zero =>
    intro k n acc h
    show acc.length ≤ k + acc.length
    omega
  | succ fuel ih =>
    intro k n acc h
    show (if n = 0 then acc
      else natToHexAux fuel (n / 16) (hexDigitChar (n % 16) :: acc)).length
      ≤ k + acc.length
    by_cases hn : n = 0
    · rw [if_pos hn]
      omega
    · rw [if_neg hn]
      cases k with
      | zero =>
        rw [pow_zero] at h
        omega
      | succ k =>
        have hdiv : n / 16 < 16 ^ k := by
          rw [Nat.div_lt_iff_lt_mul (by norm_num)]
          calc n < 16 ^ (k + 1) := h
            _ = 16 ^ k * 16 := by rw [pow_succ]
        have := ih k (n / 16) (hexDigitChar (n % 16) :: acc) hdiv
        simp only [List.length_cons] at this
        omega

theorem natToHex_length_le (n k : Nat) (hk : 0 < k) (h : n < 16 ^ k) :
    (natToHex n).length ≤ k := by
  unfold natToHex
  split
  · show ("0" : String).length ≤ k
    have : ("0" : String).length = 1 := rfl
    omega
  · rw [String.length_mk]
    have := natToHexAux_length n k n [] h
    simpa using this

theorem intToHex_length_le (m : Int) (k : Nat) (hk : 0 < k) (h0 : 0 ≤ m)
    (h : m.toNat < 16 ^ k) : (intToHex m).length ≤ k := by
  unfold intToHex
  rw [if_neg (by omega)]
  exact natToHex_length_le m.toNat k hk h

theorem toLEHex_length_eq (q : ℚ) (b : Nat) (hb : 0 < b) (h0 : 0 ≤ q)
    (h1 : q < (16 : ℚ) ^ (b * 2)) : (toLEHex q b).length = b * 2 := by
  have hfl : 0 ≤ ⌊q⌋ := Int.floor_nonneg.mpr h0
  have hlt : ⌊q⌋ < (16 : ℤ) ^ (b * 2) := by
    rw [Int.floor_lt]
    push_cast
    exact h1
  have htn : ⌊q⌋.toNat < 16 ^ (b * 2) := by
    rw [Int.toNat_lt hfl]
    push_cast
    exact hlt
  have hlen := intToHex_length_le ⌊q⌋ (b * 2) (by omega) hfl htn
  unfold toLEHex
  rw [String.length_mk, leReorder_length, floor_jsOrZero]
  have hdl : (padStart (intToHex ⌊q⌋) (b * 2) '0').data.length
      = (padStart (intToHex ⌊q⌋) (b * 2) '0').length := rfl
  rw [hdl, padStart_length]
  omega

theorem toByte_length_eq (q : ℚ) (h0 : 0 ≤ q) (h1 : q < 256) :
    (toByte q).length = 2 := by
  have hfl : 0 ≤ ⌊q⌋ := Int.floor_nonneg.mpr h0
  have hlt : ⌊q⌋ < (16 : ℤ) ^ 2 := by
    rw [Int.floor_lt]
    push_cast
    exact h1
  have htn : ⌊q⌋.toNat < 16 ^ 2 := by
    rw [Int.toNat_lt hfl]
    push_cast
    exact hlt
  have hlen := intToHex_length_le ⌊q⌋ 2 (by omega) hfl htn
  unfold toByte
  rw [floor_jsOrZero, padStart_length]
  omega

theorem jsToUpperCase_length (s : String) :
    (jsToUpperCase s).length = s.length := by
  unfold jsToUpperCase
  rw [String.length_mk, List.length_map]
  rfl

theorem matchMask_lt (f : Form0A04) : matchMask f < 65536 := by
  have h2 : (65536 : Nat) = 2 ^ 16 := by norm_num
  unfold matchMask
  rw [h2]
  repeat' apply Nat.or_lt_two_pow
  all_goals (split <;> decide)

theorem inU16_toLEHex_length (q : ℚ) (h : inU16 q) :
    (toLEHex q 2).length = 4 := by
  have := toLEHex_length_eq q 2 (by norm_num) h.1 (by
    have he : ((16 : ℚ) ^ (2 * 2)) = 65536 := by norm_num
    rw [he]
    exact h.2)
  simpa using this

theorem genBuff_length (b : BuffEntry) (h : b.InRange) :
    (genBuff b).length = 14 := by
  obtain ⟨hh, hc, ha, hd, hn, _⟩ := h
  unfold genBuff
  simp only [String.length_append]
  rw [toByte_length_eq _ hh.1 hh.2, inU16_toLEHex_length _ hc,
      toByte_length_eq _ hd.1 hd.2, toByte_length_eq _ hn.1 hn.2,
      inU16_toLEHex_length _ ha]

/-- C6: with every numeric field in its declared range, the Position
record encodes to exactly 48 hex characters, Health to 24, Match-status
to 16 and the Buff block to 72. -/
theorem codec_fixed_lengths :
    (∀ fs : BroadcastForms, fs.form0A01.InRange →
        (generatedPayload .t0A01 fs).length = 48) ∧
    (∀ fs : BroadcastForms, fs.form0A02.InRange →
        (generatedPayload .t0A02 fs).length = 24) ∧
    (∀ fs : BroadcastForms, fs.form0A04.InRange →
        (generatedPayload .t0A04 fs).length = 16) ∧
    (∀ fs : BroadcastForms, fs.form0A05.InRange →
        (generatedPayload .t0A05 fs).length = 72) := by
  have h0000 : ("0000" : String).length = 4 := rfl
  refine ⟨?_, ?_, ?_, ?_⟩
  · intro fs hr
    obtain ⟨h1, h2, h3, h4, h5, h6, h7, h8, h9, h10, h11, h12⟩ := hr
    show (jsToUpperCase (body0A01 fs.form0A01)).length = 48
    rw [jsToUpperCase_length]
    unfold body0A01
    simp only [String.length_append]
    rw [inU16_toLEHex_length _ h1, inU16_toLEHex_length _ h2,
        inU16_toLEHex_length _ h3, inU16_toLEHex_length _ h4,
        inU16_toLEHex_length _ h5, inU16_toLEHex_length _ h6,
        inU16_toLEHex_length _ h7, inU16_toLEHex_length _ h8,
        inU16_toLEHex_length _ h9, inU16_toLEHex_length _ h10,
        inU16_toLEHex_length _ h11, inU16_toLEHex_length _ h12]
  · intro fs hr
    obtain ⟨h1, h2, h3, h4, h5⟩ := hr
    show (jsToUpperCase (body0A02 fs.form0A02)).length = 24
    rw [jsToUpperCase_length]
    unfold body0A02
    simp only [String.length_append]
    rw [inU16_toLEHex_length _ h1, inU16_toLEHex_length _ h2,
        inU16_toLEHex_length _ h3, inU16_toLEHex_length _ h4,
        inU16_toLEHex_length _ h5, h0000]
  · intro fs hr
    show (jsToUpperCase (body0A04 fs.form0A04)).length = 16
    rw [jsToUpperCase_length]
    unfold body0A04
    simp only [String.length_append]
    have hmask : (toLEHex ((matchMask fs.form0A04 : Nat) : ℚ) 4).length = 8 := by
      have hlt : ((matchMask fs.form0A04 : Nat) : ℚ) < (16 : ℚ) ^ (4 * 2) := by
        have h1 : ((matchMask fs.form0A04 : Nat) : ℚ) < 65536 := by
          exact_mod_cast matchMask_lt fs.form0A04
        have h2 : (65536 : ℚ) ≤ (16 : ℚ) ^ (4 * 2) := by norm_num
        linarith
      have := toLEHex_length_eq ((matchMask fs.form0A04 : Nat) : ℚ) 4
        (by norm_num) (by positivity) hlt
      simpa using this
    rw [inU16_toLEHex_length _ hr, h0000, hmask]
  · intro fs hr
    obtain ⟨h1, h2, h3, h4, h5⟩ := hr
    show (jsToUpperCase (body0A05 fs.form0A05)).length = 72
    rw [jsToUpperCase_length]
    unfold body0A05
    simp only [String.length_append]
    rw [genBuff_length _ h1, genBuff_length _ h2, genBuff_length _ h3,
        genBuff_length _ h4, genBuff_length _ h5,
        toByte_length_eq _ h5.2.2.2.2.2.1 h5.2.2.2.2.2.2]

theorem codec_fixed_lengths_witness :
    (generatedPayload .t0A01
        { manualHex := "",
          form0A01 := ⟨1, 2, 3, 4, 5, 6, 7, 8, 9, 10, 11, 12⟩,
          form0A02 := ⟨200, 400, 150, 150, 600⟩,
          form0A04 := ⟨0, false, false, false, false, false, false, false,
            false, false, false, false⟩,
          form0A05 := ⟨⟨0, 0, 0, 0, 0, 0⟩, ⟨0, 0, 0, 0, 0, 0⟩,
            ⟨0, 0, 0, 0, 0, 0⟩, ⟨0, 0, 0, 0, 0, 0⟩,
            ⟨0, 0, 0, 0, 0, 0⟩⟩ }).length = 48 ∧
    (generatedPayload .t0A05
        { manualHex := "",
          form0A01 := ⟨1, 2, 3, 4, 5, 6, 7, 8, 9, 10, 11, 12⟩,
          form0A02 := ⟨200, 400, 150, 150, 600⟩,
          form0A04 := ⟨0, false, false, false, false, false, false, false,
            false, false, false, false⟩,
          form0A05 := ⟨⟨1, 2, 3, 4, 5, 6⟩, ⟨0, 0, 0, 0, 0, 0⟩,
            ⟨0, 0, 0, 0, 0, 0⟩, ⟨0, 0, 0, 0, 0, 0⟩,
            ⟨9, 10, 11, 12, 13, 14⟩⟩ }).length = 72 :=
  ⟨codec_fixed_lengths.1 _ (by exact ⟨⟨by norm_num, by norm_num⟩,
      ⟨by norm_num, by norm_num⟩, ⟨by norm_num, by norm_num⟩,
      ⟨by norm_num, by norm_num⟩, ⟨by norm_num, by norm_num⟩,
      ⟨by norm_num, by norm_num⟩, ⟨by norm_num, by norm_num⟩,
      ⟨by norm_num, by norm_num⟩, ⟨by norm_num, by norm_num⟩,
      ⟨by norm_num, by norm_num⟩, ⟨by norm_num, by norm_num⟩,
      ⟨by norm_num, by norm_num⟩⟩),
   codec_fixed_lengths.2.2.2 _ (by
      refine ⟨?_, ?_, ?_, ?_, ?_⟩ <;>
        exact ⟨⟨by norm_num, by norm_num⟩, ⟨by norm_num, by norm_num⟩,
          ⟨by norm_num, by norm_num⟩, ⟨by norm_num, by norm_num⟩,
          ⟨by norm_num, by norm_num⟩, ⟨by norm_num, by norm_num⟩⟩)⟩

end SharkRadio
